import Mathlib

/-!
Shallow embedding of the sonyflake-rs distributed unique ID generator
(src/sonyflake.rs, src/builder.rs, src/error.rs), together with theorems
settling the specification claims about it.

Modelling conventions:
- Rust `i64` values (times, elapsed ticks) are modelled as `Int`; the
  `as i64` truncating cast of an `i128` is modelled by `wrap_i64`, and the
  `as u64` reinterpretation of an `i64` by `u64_of_i64` (reduction mod 2^64).
- Rust `u16` / `u64` values are modelled as `Nat`, with an explicit `% 2 ^ 64`
  wherever the Rust operation can wrap (the `<< 25` in the encoder).
- An `OffsetDateTime` is represented by its `unix_timestamp_nanos` value.
- The `Mutex`-guarded mutable state is made explicit: `next_id` takes the
  generator state and returns the result together with the updated state.
- The builder's closures (`machine_id` provider, `check_machine_id`
  predicate) are invoked at most once by `finalize`, so the provider is
  modelled by its result and the predicate by a Lean function; the host
  private-IPv4 discovery (the external `pnet` enumeration) is modelled by
  an optional discovered address passed as an argument.
-/

deriving instance DecidableEq for Except

namespace Sonyflake

/-- bit length of time (src/sonyflake.rs). -/
def BIT_LEN_TIME : Nat := 39

/-- bit length of sequence number (src/sonyflake.rs). -/
def BIT_LEN_SEQUENCE : Nat := 9

/-- bit length of machine id (src/sonyflake.rs). -/
def BIT_LEN_MACHINE_ID : Nat := 64 - BIT_LEN_TIME - BIT_LEN_SEQUENCE

/-- mask used when incrementing the sequence (src/sonyflake.rs). -/
def GENERATE_MASK_SEQUENCE : Nat := (1 <<< BIT_LEN_SEQUENCE) - 1

/-- the Error enum of src/error.rs; the boxed dynamic cause carried by
MachineIdFailed is modelled as a String. -/
inductive Error where
  | StartTimeAheadOfCurrentTime : Int → Error
  | MachineIdFailed : String → Error
  | CheckMachineIdFailed : Error
  | OverTimeLimit : Error
  | OverSequenceLimit : Error
  | NoPrivateIPv4 : Error
deriving DecidableEq, Repr

/-- the mutable counters guarded by the mutex (struct Internals). -/
structure Internals where
  elapsed_time : Int
  sequence : Nat
deriving DecidableEq, Repr

/-- the shared generator state (struct SharedSonyflake), with the mutex
made explicit. -/
structure SharedSonyflake where
  start_time : Int
  machine_id : Nat
  internals : Internals
deriving DecidableEq, Repr

/-- nanoseconds in a tick, i.e. 10 msec (src/sonyflake.rs). -/
def SONYFLAKE_TIME_UNIT : Int := 10000000

/-- the truncating `as i64` cast of an `i128` (two's complement). -/
def wrap_i64 (x : Int) : Int := (x + 2 ^ 63) % 2 ^ 64 - 2 ^ 63

/-- the `as u64` reinterpretation of an `i64` (two's complement). -/
def u64_of_i64 (x : Int) : Nat := (x % 2 ^ 64).toNat

/-- fn to_sonyflake_time: `time.unix_timestamp_nanos() as i64 / SONYFLAKE_TIME_UNIT`;
Rust `/` on i64 truncates toward zero, which is `Int.tdiv`. -/
def to_sonyflake_time (nanos : Int) : Int :=
  Int.tdiv (wrap_i64 nanos) SONYFLAKE_TIME_UNIT

/-- fn current_elapsed_time: `to_sonyflake_time(now) - start_time`. -/
def current_elapsed_time (now start_time : Int) : Int :=
  to_sonyflake_time now - start_time

/-- fn Sonyflake::next_id. Returns the result together with the updated
shared state. The early `return Err(OverSequenceLimit)` is modelled by the
intermediate `Except Unit Internals` value: on the error the original state
is returned untouched, exactly as the early return leaves the mutex-guarded
state. -/
def next_id (sf : SharedSonyflake) (now : Int) : Except Error Nat × SharedSonyflake :=
  let current := current_elapsed_time now sf.start_time
  let i := sf.internals
  let step : Except Unit Internals :=
    if i.elapsed_time < current then
      Except.ok { elapsed_time := current, sequence := 0 }
    else
      let next_sequence := ((i.sequence + 1) % 65536) &&& GENERATE_MASK_SEQUENCE
      if next_sequence = 0 then
        Except.error ()
      else
        Except.ok { i with sequence := next_sequence }
  match step with
  | Except.error _ => (Except.error Error.OverSequenceLimit, sf)
  | Except.ok i2 =>
    if ((1 <<< BIT_LEN_TIME : Nat) : Int) ≤ i2.elapsed_time then
      (Except.error Error.OverTimeLimit, { sf with internals := i2 })
    else
      (Except.ok
        ((u64_of_i64 i2.elapsed_time <<< (BIT_LEN_SEQUENCE + BIT_LEN_MACHINE_ID)) % 2 ^ 64
          ||| i2.sequence <<< BIT_LEN_MACHINE_ID
          ||| sf.machine_id),
        { sf with internals := i2 })

/-- fn Sonyflake::min_sonyflake_for_time: the `<<` of a u64 discards
overflowing bits, hence the `% 2 ^ 64`. -/
def min_sonyflake_for_time (sf : SharedSonyflake) (time : Int) : Nat :=
  (u64_of_i64 (to_sonyflake_time time - sf.start_time)
      <<< (BIT_LEN_SEQUENCE + BIT_LEN_MACHINE_ID)) % 2 ^ 64

/-- struct DecomposedSonyflake. -/
structure DecomposedSonyflake where
  id : Nat
  time : Nat
  sequence : Nat
  machine_id : Nat
deriving DecidableEq, Repr

/-- fn DecomposedSonyflake::nanos_time: `(self.time as i64) * SONYFLAKE_TIME_UNIT`;
for any 64-bit id the time field is below 2^39, so the `as i64` cast is exact
and the product stays in i64 range. -/
def nanos_time (d : DecomposedSonyflake) : Int :=
  (d.time : Int) * SONYFLAKE_TIME_UNIT

/-- mask of the sequence bits inside an id (src/sonyflake.rs). -/
def DECOMPOSE_MASK_SEQUENCE : Nat :=
  ((1 <<< BIT_LEN_SEQUENCE) - 1) <<< BIT_LEN_MACHINE_ID

/-- mask of the machine id bits inside an id (src/sonyflake.rs). -/
def MASK_MACHINE_ID : Nat := (1 <<< BIT_LEN_MACHINE_ID) - 1

/-- fn decompose. -/
def decompose (id : Nat) : DecomposedSonyflake :=
  { id := id
    time := id >>> (BIT_LEN_SEQUENCE + BIT_LEN_MACHINE_ID)
    sequence := (id &&& DECOMPOSE_MASK_SEQUENCE) >>> BIT_LEN_MACHINE_ID
    machine_id := id &&& MASK_MACHINE_ID }

/-- struct Builder: the optional machine id provider is modelled by the
result of its (single) invocation, the optional check predicate by a Lean
function. -/
structure Builder where
  start_time : Option Int
  machine_id : Option (Except String Nat)
  check_machine_id : Option (Nat → Bool)

/-- fn Builder::new. -/
def Builder.new : Builder :=
  { start_time := none, machine_id := none, check_machine_id := none }

/-- fn lower_16_bit_private_ip, with the host's discovered private IPv4
address (the external pnet interface enumeration of fn private_ipv4)
passed in as its four octets. -/
def lower_16_bit_private_ip (ip : Option (Nat × Nat × Nat × Nat)) : Except Error Nat :=
  match ip with
  | some (_o0, _o1, o2, o3) => Except.ok (((o2 % 256) <<< 8) + o3 % 256)
  | none => Except.error Error.NoPrivateIPv4

/-- unix nanoseconds of the default epoch `datetime!(2014-09-01 00:00:00 UTC)`
used by Builder::finalize; 2014-09-01 is 16314 days after 1970-01-01, and
16314 * 86400 = 1409529600 seconds. -/
def default_epoch_nanos : Int := 1409529600 * 1000000000

/-- fn Builder::finalize: `now` is the wall clock read by
`OffsetDateTime::now_utc()`, `host_ip` the discovered private IPv4 address
of the host (used only when no machine id provider is configured). -/
def finalize (b : Builder) (now : Int) (host_ip : Option (Nat × Nat × Nat × Nat)) :
    Except Error SharedSonyflake :=
  let sequence : Nat := 1 <<< (BIT_LEN_SEQUENCE - 1)
  let start_step : Except Error Int :=
    match b.start_time with
    | some st =>
      if now < st then Except.error (Error.StartTimeAheadOfCurrentTime st)
      else Except.ok (to_sonyflake_time st)
    | none => Except.ok (to_sonyflake_time default_epoch_nanos)
  match start_step with
  | Except.error e => Except.error e
  | Except.ok start_time =>
    let machine_step : Except Error Nat :=
      match b.machine_id with
      | some provided =>
        match provided with
        | Except.ok machine_id => Except.ok machine_id
        | Except.error e => Except.error (Error.MachineIdFailed e)
      | none => lower_16_bit_private_ip host_ip
    match machine_step with
    | Except.error e => Except.error e
    | Except.ok machine_id =>
      if (match b.check_machine_id with
          | some check => !check machine_id
          | none => false) then
        Except.error Error.CheckMachineIdFailed
      else
        Except.ok
          { start_time := start_time
            machine_id := machine_id
            internals := { sequence := sequence, elapsed_time := 0 } }

/-- a sequence of next_id calls on one generator instance: the list of
results in call order, together with the final state. -/
def run (sf : SharedSonyflake) : List Int → List (Except Error Nat) × SharedSonyflake
  | [] => ([], sf)
  | now :: rest =>
    let r := next_id sf now
    let rs := run r.2 rest
    (r.1 :: rs.1, rs.2)

/-- the successfully returned ids of a list of results, in order. -/
def oks (rs : List (Except Error Nat)) : List Nat :=
  rs.filterMap fun r => r.toOption

/-- representation invariant of a generator state: the elapsed time is
nonnegative (it starts at 0 and only ever advances), and the sequence and
machine id carry u16 values within their 9 and 16 bit ranges. -/
def wf (sf : SharedSonyflake) : Prop :=
  0 ≤ sf.internals.elapsed_time ∧ sf.internals.sequence < 512 ∧ sf.machine_id < 65536

/-- the (elapsed_time, sequence) pair of a state, as a single number: under
`wf` a successful id is exactly `(mu sf).toNat * 65536 + machine_id`. -/
def mu (sf : SharedSonyflake) : Int :=
  sf.internals.elapsed_time * 512 + sf.internals.sequence

/-- the generation algorithm exactly as the specification words it:
compute `current_tick` as the truncated division of the nanoseconds by
10,000,000 minus `start_time`; on `current_tick > elapsed_time` advance and
reset the sequence, otherwise increment the sequence mod 512 and fail with
OverSequenceLimit on a wrap to 0 without advancing `elapsed_time`; then
fail with OverTimeLimit when `elapsed_time ≥ 2 ^ 39`, and otherwise return
the packed `(elapsed_time <<< 25) ||| (sequence <<< 16) ||| machine_id`.
Returns the result together with the (elapsed_time, sequence) pair after
the call. -/
def spec_next_id (start_time : Int) (machine_id : Nat) (elapsed_time : Int)
    (sequence : Nat) (now : Int) : Except Error Nat × Int × Nat :=
  let current_tick := Int.tdiv now 10000000 - start_time
  let upd : Except Error (Int × Nat) :=
    if current_tick > elapsed_time then Except.ok (current_tick, 0)
    else
      let s2 := (sequence + 1) % 512
      if s2 = 0 then Except.error Error.OverSequenceLimit
      else Except.ok (elapsed_time, s2)
  match upd with
  | Except.error e => (Except.error e, elapsed_time, sequence)
  | Except.ok (e2, s2) =>
    if e2 ≥ 2 ^ 39 then (Except.error Error.OverTimeLimit, e2, s2)
    else (Except.ok ((e2.toNat <<< 25) ||| (s2 <<< 16) ||| machine_id), e2, s2)


/-! Helper lemmas about the bit-level arithmetic. -/

lemma land_511 (x : Nat) : x &&& 511 = x % 512 := by
  have h := Nat.and_pow_two_sub_one_eq_mod x 9
  norm_num at h
  exact h

lemma land_65535 (x : Nat) : x &&& 65535 = x % 65536 := by
  have h := Nat.and_pow_two_sub_one_eq_mod x 16
  norm_num at h
  exact h

lemma wrap_i64_eq_self {x : Int} (hlo : -(2 ^ 63) ≤ x) (hhi : x < 2 ^ 63) :
    wrap_i64 x = x := by
  unfold wrap_i64
  have h : (x + 2 ^ 63) % 2 ^ 64 = x + 2 ^ 63 :=
    Int.emod_eq_of_lt (by omega) (by omega)
  omega

lemma u64_of_i64_eq_toNat {x : Int} (hlo : 0 ≤ x) (hhi : x < 2 ^ 64) :
    u64_of_i64 x = x.toNat := by
  unfold u64_of_i64
  rw [Int.emod_eq_of_lt hlo hhi]

/-- packing disjoint fields with `|||` is ordinary arithmetic. -/
lemma encode_eq (e s m : Nat) (hs : s < 512) (hm : m < 65536) :
    (e <<< 25) ||| (s <<< 16) ||| m = (e * 512 + s) * 65536 + m := by
  have hsm : s * 2 ^ 16 < 2 ^ 25 := by omega
  have h1 : 2 ^ 25 * e + s * 2 ^ 16 = 2 ^ 25 * e ||| s * 2 ^ 16 :=
    Nat.mul_add_lt_is_or hsm e
  have h2 : 2 ^ 16 * (e * 512 + s) + m = 2 ^ 16 * (e * 512 + s) ||| m :=
    Nat.mul_add_lt_is_or hm _
  rw [Nat.shiftLeft_eq, Nat.shiftLeft_eq]
  calc e * 2 ^ 25 ||| s * 2 ^ 16 ||| m
      = (2 ^ 25 * e ||| s * 2 ^ 16) ||| m := by rw [Nat.mul_comm]
    _ = (2 ^ 25 * e + s * 2 ^ 16) ||| m := by rw [h1]
    _ = (2 ^ 16 * (e * 512 + s)) ||| m := by
        congr 1
        omega
    _ = 2 ^ 16 * (e * 512 + s) + m := h2.symm
    _ = (e * 512 + s) * 65536 + m := by omega

lemma and_mask_seq (x : Nat) :
    x &&& DECOMPOSE_MASK_SEQUENCE = ((x >>> 16) &&& 511) <<< 16 := by
  have hmask : DECOMPOSE_MASK_SEQUENCE = (2 ^ 9 - 1) <<< 16 := by decide
  have h511 : (511 : Nat) = 2 ^ 9 - 1 := by decide
  rw [hmask, h511]
  apply Nat.eq_of_testBit_eq
  intro i
  simp only [Nat.testBit_and, Nat.testBit_shiftLeft, Nat.testBit_shiftRight,
    Nat.testBit_two_pow_sub_one]
  by_cases h : 16 ≤ i
  · have : 16 + (i - 16) = i := by omega
    simp [h, this]
  · simp [h]

/-! Closed arithmetic forms of the decompose fields. -/

lemma decompose_id (id : Nat) : (decompose id).id = id := rfl

lemma decompose_time (id : Nat) : (decompose id).time = id / 2 ^ 25 := by
  show id >>> 25 = id / 2 ^ 25
  exact Nat.shiftRight_eq_div_pow id 25

lemma decompose_machine (id : Nat) : (decompose id).machine_id = id % 65536 := by
  show id &&& MASK_MACHINE_ID = id % 65536
  have : MASK_MACHINE_ID = 65535 := by decide
  rw [this, land_65535]

lemma decompose_sequence (id : Nat) : (decompose id).sequence = id / 2 ^ 16 % 512 := by
  show (id &&& DECOMPOSE_MASK_SEQUENCE) >>> 16 = id / 2 ^ 16 % 512
  rw [and_mask_seq, Nat.shiftLeft_shiftRight, land_511, Nat.shiftRight_eq_div_pow]

lemma next_sequence_eq {s : Nat} (hs : s < 512) :
    ((s + 1) % 65536) &&& GENERATE_MASK_SEQUENCE = (s + 1) % 512 := by
  have hm : GENERATE_MASK_SEQUENCE = 511 := by decide
  have h1 : (s + 1) % 65536 = s + 1 := Nat.mod_eq_of_lt (by omega)
  rw [hm, h1, land_511]

lemma time_limit_iff (e : Int) :
    (((1 <<< BIT_LEN_TIME : Nat) : Int) ≤ e) ↔ e ≥ 2 ^ 39 := by
  have h : ((1 <<< BIT_LEN_TIME : Nat) : Int) = 2 ^ 39 := by decide
  rw [h]

lemma encode_u64_eq {e : Int} {s m : Nat} (he0 : 0 ≤ e) (he : e < 2 ^ 39) :
    (u64_of_i64 e <<< (BIT_LEN_SEQUENCE + BIT_LEN_MACHINE_ID)) % 2 ^ 64
        ||| s <<< BIT_LEN_MACHINE_ID ||| m
      = (e.toNat <<< 25) ||| (s <<< 16) ||| m := by
  have hbl : BIT_LEN_SEQUENCE + BIT_LEN_MACHINE_ID = 25 := by decide
  have hbm : BIT_LEN_MACHINE_ID = 16 := by decide
  have hu : u64_of_i64 e = e.toNat := u64_of_i64_eq_toNat he0 (by omega)
  have hlt : e.toNat <<< 25 < 2 ^ 64 := by
    rw [Nat.shiftLeft_eq]
    have : e.toNat < 2 ^ 39 := by omega
    omega
  rw [hbl, hbm, hu, Nat.mod_eq_of_lt hlt]

/-- next_id computes exactly what the specification describes, and its only
state change is the (elapsed_time, sequence) update the specification
describes. -/
lemma next_id_eq_spec (sf : SharedSonyflake) (now : Int) (hwf : wf sf)
    (hlo : -(2 ^ 63) ≤ now) (hhi : now < 2 ^ 63) :
    next_id sf now =
      ((spec_next_id sf.start_time sf.machine_id sf.internals.elapsed_time
          sf.internals.sequence now).1,
        { sf with
          internals :=
            { elapsed_time :=
                (spec_next_id sf.start_time sf.machine_id sf.internals.elapsed_time
                    sf.internals.sequence now).2.1
              sequence :=
                (spec_next_id sf.start_time sf.machine_id sf.internals.elapsed_time
                    sf.internals.sequence now).2.2 } }) := by
  obtain ⟨he0, hs, hm⟩ := hwf
  have hticks : current_elapsed_time now sf.start_time
      = Int.tdiv now 10000000 - sf.start_time := by
    unfold current_elapsed_time to_sonyflake_time SONYFLAKE_TIME_UNIT
    rw [wrap_i64_eq_self hlo hhi]
  have hpow : ((1 <<< BIT_LEN_TIME : Nat) : Int) = (2 ^ 39 : Int) := by decide
  have hbl : BIT_LEN_SEQUENCE + BIT_LEN_MACHINE_ID = 25 := by decide
  have hbm : BIT_LEN_MACHINE_ID = 16 := by decide
  have hbl2 : BIT_LEN_SEQUENCE + 16 = 25 := by decide
  unfold next_id spec_next_id
  simp only [hticks, hpow, hbl, hbm, hbl2, gt_iff_lt, ge_iff_le]
  by_cases hadv : sf.internals.elapsed_time < Int.tdiv now 10000000 - sf.start_time
  · simp only [if_pos hadv]
    by_cases hlim : (2 ^ 39 : Int) ≤ Int.tdiv now 10000000 - sf.start_time
    · simp only [if_pos hlim]
    · simp only [if_neg hlim]
      have h0c : 0 ≤ Int.tdiv now 10000000 - sf.start_time :=
        le_of_lt (lt_of_le_of_lt he0 hadv)
      have hu : u64_of_i64 (Int.tdiv now 10000000 - sf.start_time)
          = (Int.tdiv now 10000000 - sf.start_time).toNat :=
        u64_of_i64_eq_toNat h0c (by omega)
      have hmod : (Int.tdiv now 10000000 - sf.start_time).toNat <<< 25 % 2 ^ 64
          = (Int.tdiv now 10000000 - sf.start_time).toNat <<< 25 :=
        Nat.mod_eq_of_lt (by rw [Nat.shiftLeft_eq]; omega)
      rw [hu, hmod]
  · simp only [if_neg hadv, next_sequence_eq hs]
    by_cases hwrap : (sf.internals.sequence + 1) % 512 = 0
    · simp only [if_pos hwrap]
    · simp only [if_neg hwrap]
      by_cases hlim : (2 ^ 39 : Int) ≤ sf.internals.elapsed_time
      · simp only [if_pos hlim]
      · simp only [if_neg hlim]
        have hu : u64_of_i64 sf.internals.elapsed_time
            = sf.internals.elapsed_time.toNat :=
          u64_of_i64_eq_toNat he0 (by omega)
        have hmod : sf.internals.elapsed_time.toNat <<< 25 % 2 ^ 64
            = sf.internals.elapsed_time.toNat <<< 25 :=
          Nat.mod_eq_of_lt (by rw [Nat.shiftLeft_eq]; omega)
        rw [hu, hmod]

/-- one comprehensive case analysis of a next_id call from a well-formed
state: the invariant is preserved, the immutable fields do not change, the
measure mu never decreases, a success strictly increases mu and returns the
encoding of the post state, OverSequenceLimit leaves the state untouched
and happens exactly at sequence 511, and OverTimeLimit always commits a
counter update. -/
lemma next_id_main (sf : SharedSonyflake) (now : Int) (hwf : wf sf)
    (res : Except Error Nat) (st : SharedSonyflake)
    (heq : next_id sf now = (res, st)) :
    wf st ∧ st.start_time = sf.start_time ∧ st.machine_id = sf.machine_id ∧
    mu sf ≤ mu st ∧
    (∀ id, res = Except.ok id →
      mu sf < mu st ∧ st.internals.elapsed_time < 2 ^ 39 ∧
      id = (mu st).toNat * 65536 + sf.machine_id) ∧
    (res = Except.error Error.OverSequenceLimit →
      st = sf ∧ sf.internals.sequence = 511) ∧
    (res = Except.error Error.OverTimeLimit → st.internals ≠ sf.internals) ∧
    current_elapsed_time now sf.start_time ≤ st.internals.elapsed_time ∧
    (¬ sf.internals.elapsed_time < current_elapsed_time now sf.start_time →
      sf.internals.sequence = 511 → res = Except.error Error.OverSequenceLimit) := by
  obtain ⟨he0, hs, hm⟩ := hwf
  have hpow : ((1 <<< BIT_LEN_TIME : Nat) : Int) = (2 ^ 39 : Int) := by decide
  have hbl : BIT_LEN_SEQUENCE + BIT_LEN_MACHINE_ID = 25 := by decide
  have hbm : BIT_LEN_MACHINE_ID = 16 := by decide
  have hbl2 : BIT_LEN_SEQUENCE + 16 = 25 := by decide
  unfold next_id at heq
  simp only [hpow, hbl, hbm, hbl2, next_sequence_eq hs] at heq
  set c := current_elapsed_time now sf.start_time with hc
  by_cases hadv : sf.internals.elapsed_time < c
  · rw [if_pos hadv] at heq
    dsimp only at heq
    have h0c : 0 ≤ c := le_of_lt (lt_of_le_of_lt he0 hadv)
    by_cases hlim : (2 ^ 39 : Int) ≤ c
    · rw [if_pos hlim] at heq
      cases heq
      refine ⟨⟨h0c, by simp only []; omega, hm⟩, rfl, rfl, ?_, by simp, by simp, ?_,
        by simp only []; omega, fun h _ => absurd hadv h⟩
      · simp only [mu]
        omega
      · intro _ h
        have := congrArg Internals.elapsed_time h
        simp only at this
        omega
    · rw [if_neg hlim] at heq
      cases heq
      refine ⟨⟨h0c, by simp only []; omega, hm⟩, rfl, rfl, ?_, ?_, by simp, by simp,
        by simp only []; omega, fun h _ => absurd hadv h⟩
      · simp only [mu]
        omega
      · intro id hid
        injection hid with hid2
        subst hid2
        refine ⟨by simp only [mu]; omega, by simp only [mu]; omega, ?_⟩
        rw [u64_of_i64_eq_toNat h0c (by omega),
          Nat.mod_eq_of_lt (by rw [Nat.shiftLeft_eq]; omega),
          encode_eq _ _ _ (by omega) hm]
        simp only [mu]
        omega
  · rw [if_neg hadv] at heq
    by_cases hwrap : (sf.internals.sequence + 1) % 512 = 0
    · rw [if_pos hwrap] at heq
      dsimp only at heq
      cases heq
      refine ⟨⟨he0, hs, hm⟩, rfl, rfl, le_refl _, by simp, ?_, by simp, by omega,
        fun _ _ => rfl⟩
      intro _
      exact ⟨rfl, by omega⟩
    · rw [if_neg hwrap] at heq
      dsimp only at heq
      by_cases hlim : (2 ^ 39 : Int) ≤ sf.internals.elapsed_time
      · rw [if_pos hlim] at heq
        cases heq
        refine ⟨⟨he0, by simp only []; omega, hm⟩, rfl, rfl, ?_, by simp, by simp, ?_,
          by simp only []; omega, fun _ h511 => absurd (by rw [h511]) hwrap⟩
        · simp only [mu]
          omega
        · intro _ h
          have := congrArg Internals.sequence h
          simp only at this
          omega
      · rw [if_neg hlim] at heq
        cases heq
        refine ⟨⟨he0, by simp only []; omega, hm⟩, rfl, rfl, ?_, ?_, by simp, by simp,
          by simp only []; omega, fun _ h511 => absurd (by rw [h511]) hwrap⟩
        · simp only [mu]
          omega
        · intro id hid
          injection hid with hid2
          subst hid2
          refine ⟨by simp only [mu]; omega, by simp only [mu]; omega, ?_⟩
          rw [u64_of_i64_eq_toNat he0 (by omega),
            Nat.mod_eq_of_lt (by rw [Nat.shiftLeft_eq]; omega),
            encode_eq _ _ _ (by omega) hm]
          simp only [mu]
          omega

lemma mu_nonneg (sf : SharedSonyflake) (hwf : wf sf) : 0 ≤ mu sf := by
  obtain ⟨h1, _, _⟩ := hwf
  simp only [mu]
  omega

lemma oks_cons_ok (id : Nat) (rs : List (Except Error Nat)) :
    oks (Except.ok id :: rs) = id :: oks rs := rfl

lemma oks_cons_error (e : Error) (rs : List (Except Error Nat)) :
    oks (Except.error e :: rs) = oks rs := rfl

lemma run_cons (sf : SharedSonyflake) (n : Int) (rest : List Int)
    (res : Except Error Nat) (st : SharedSonyflake) (hne : next_id sf n = (res, st)) :
    run sf (n :: rest) = (res :: (run st rest).1, (run st rest).2) := by
  simp [run, hne]

/-- every id returned by a sequence of calls is strictly above the ideal
encoding of the starting state. -/
lemma oks_gt (nows : List Int) : ∀ sf : SharedSonyflake, wf sf →
    ∀ id ∈ oks (run sf nows).1, (mu sf).toNat * 65536 + sf.machine_id < id := by
  induction nows with
  | nil =>
    intro sf _ id hid
    simp [run, oks] at hid
  | cons n rest ih =>
    intro sf hwf id hid
    rcases hne : next_id sf n with ⟨res, st⟩
    obtain ⟨hwfst, _, hmach, hmu, hok, _, _, _, _⟩ := next_id_main sf n hwf res st hne
    rw [run_cons sf n rest res st hne] at hid
    have h0 : 0 ≤ mu sf := mu_nonneg sf hwf
    cases res with
    | ok v =>
      obtain ⟨hlt, _, hv⟩ := hok v rfl
      rw [oks_cons_ok] at hid
      rcases List.mem_cons.mp hid with rfl | hid2
      · omega
      · have htail := ih st hwfst id hid2
        rw [hmach] at htail
        omega
    | error e =>
      rw [oks_cons_error] at hid
      have htail := ih st hwfst id hid
      rw [hmach] at htail
      omega

/-- the successful ids of any sequence of calls are strictly increasing in
call order. -/
lemma oks_pairwise (nows : List Int) : ∀ sf : SharedSonyflake, wf sf →
    (oks (run sf nows).1).Pairwise (· < ·) := by
  induction nows with
  | nil =>
    intro sf _
    simp [run, oks]
  | cons n rest ih =>
    intro sf hwf
    rcases hne : next_id sf n with ⟨res, st⟩
    obtain ⟨hwfst, _, hmach, hmu, hok, _, _, _, _⟩ := next_id_main sf n hwf res st hne
    rw [run_cons sf n rest res st hne]
    cases res with
    | ok v =>
      rw [oks_cons_ok]
      refine List.pairwise_cons.mpr ⟨?_, ih st hwfst⟩
      intro id hid
      obtain ⟨hlt, _, hv⟩ := hok v rfl
      have hgt := oks_gt rest st hwfst id hid
      rw [hmach] at hgt
      have h0 : 0 ≤ mu sf := mu_nonneg sf hwf
      omega
    | error e =>
      rw [oks_cons_error]
      exact ih st hwfst

-- sanity checks on concrete inputs (kept as examples, they are proofs)
example : to_sonyflake_time default_epoch_nanos = 140952960000 := by decide
example :
    (next_id { start_time := 0, machine_id := 7, internals := { elapsed_time := 0, sequence := 256 } } 0).1
      = Except.ok ((257 <<< 16) ||| 7) := by decide
example :
    (next_id { start_time := 0, machine_id := 7, internals := { elapsed_time := 0, sequence := 511 } } 0).1
      = Except.error Error.OverSequenceLimit := by decide
example :
    (next_id { start_time := 0, machine_id := 7, internals := { elapsed_time := 0, sequence := 0 } } 10000000).1
      = Except.ok ((1 <<< 25) ||| (0 <<< 16) ||| 7) := by decide
example : (decompose ((3 <<< 25) ||| (5 <<< 16) ||| 42)).sequence = 5 := by decide
example : (decompose ((3 <<< 25) ||| (5 <<< 16) ||| 42)).time = 3 := by decide
example : (decompose ((3 <<< 25) ||| (5 <<< 16) ||| 42)).machine_id = 42 := by decide

/-! The claim theorems. -/

/-- C1: every call to next_id computes current_tick as the truncated
division of the clock nanoseconds by 10,000,000 minus start_time; if
current_tick > elapsed_time it sets elapsed_time to current_tick and
sequence to 0, otherwise it increments the sequence mod 512, failing with
OverSequenceLimit on a wrap to 0 without advancing elapsed_time; then it
fails with OverTimeLimit when elapsed_time ≥ 2^39, and otherwise returns
(elapsed_time << 25) | (sequence << 16) | machine_id. -/
theorem C1_next_id_follows_spec (sf : SharedSonyflake) (now : Int) (hwf : wf sf)
    (hlo : -(2 ^ 63) ≤ now) (hhi : now < 2 ^ 63) :
    next_id sf now =
      ((spec_next_id sf.start_time sf.machine_id sf.internals.elapsed_time
          sf.internals.sequence now).1,
        { sf with
          internals :=
            { elapsed_time :=
                (spec_next_id sf.start_time sf.machine_id sf.internals.elapsed_time
                    sf.internals.sequence now).2.1
              sequence :=
                (spec_next_id sf.start_time sf.machine_id sf.internals.elapsed_time
                    sf.internals.sequence now).2.2 } }) :=
  next_id_eq_spec sf now hwf hlo hhi

/-- witness for C1 at a concrete well-formed generator state and clock. -/
theorem C1_witness :
    wf ⟨0, 42, ⟨0, 256⟩⟩ ∧
    next_id ⟨0, 42, ⟨0, 256⟩⟩ 0 =
      ((spec_next_id 0 42 0 256 0).1,
        ⟨0, 42, ⟨(spec_next_id 0 42 0 256 0).2.1, (spec_next_id 0 42 0 256 0).2.2⟩⟩) :=
  ⟨⟨by decide, by decide, by decide⟩,
    C1_next_id_follows_spec ⟨0, 42, ⟨0, 256⟩⟩ 0
      ⟨by decide, by decide, by decide⟩ (by decide) (by decide)⟩

/-- C2: the packed encoding is a bijection between 64-bit ids and
(time, sequence, machine_id) triples in their 39/9/16 bit ranges;
decompose is total with time = id >> 25, sequence = (id >> 16) & 0x1FF,
machine_id = id & 0xFFFF, the id field is the input, and nanos_time is
time * 10,000,000 with no epoch added. -/
theorem C2_decompose_bijection :
    (∀ t s m : Nat, t < 2 ^ 39 → s < 2 ^ 9 → m < 2 ^ 16 →
      decompose ((t <<< 25) ||| (s <<< 16) ||| m) =
        { id := (t <<< 25) ||| (s <<< 16) ||| m, time := t, sequence := s,
          machine_id := m }) ∧
    (∀ id : Nat, id < 2 ^ 64 →
      (((decompose id).time <<< 25) ||| ((decompose id).sequence <<< 16)
        ||| (decompose id).machine_id) = id) ∧
    (∀ id : Nat,
      (decompose id).id = id ∧
      (decompose id).time = id >>> 25 ∧
      (decompose id).sequence = (id >>> 16) &&& 511 ∧
      (decompose id).machine_id = id &&& 65535 ∧
      nanos_time (decompose id) = ((decompose id).time : Int) * 10000000) := by
  have hbl : BIT_LEN_SEQUENCE + BIT_LEN_MACHINE_ID = 25 := by decide
  have hbm : BIT_LEN_MACHINE_ID = 16 := by decide
  have hmm : MASK_MACHINE_ID = 65535 := by decide
  refine ⟨?_, ?_, ?_⟩
  · intro t s m ht hs hm
    have he := encode_eq t s m (by omega) (by omega)
    simp only [decompose, DecomposedSonyflake.mk.injEq, true_and]
    refine ⟨?_, ?_, ?_⟩
    · rw [hbl, Nat.shiftRight_eq_div_pow, he]
      omega
    · rw [hbm, and_mask_seq, Nat.shiftLeft_shiftRight, land_511,
        Nat.shiftRight_eq_div_pow, he]
      omega
    · rw [hmm, land_65535, he]
      omega
  · intro id hid
    rw [decompose_time, decompose_sequence, decompose_machine,
      encode_eq _ _ _ (by omega) (by omega)]
    omega
  · intro id
    refine ⟨rfl, rfl, ?_, ?_, rfl⟩
    · show (id &&& DECOMPOSE_MASK_SEQUENCE) >>> BIT_LEN_MACHINE_ID = (id >>> 16) &&& 511
      rw [hbm, and_mask_seq, Nat.shiftLeft_shiftRight]
    · show id &&& MASK_MACHINE_ID = id &&& 65535
      rw [hmm]

/-- witness for C2 at a concrete triple and a concrete id. -/
theorem C2_witness :
    decompose ((3 <<< 25) ||| (5 <<< 16) ||| 42) =
      { id := (3 <<< 25) ||| (5 <<< 16) ||| 42, time := 3, sequence := 5,
        machine_id := 42 } ∧
    (((decompose 123456789123).time <<< 25) ||| ((decompose 123456789123).sequence <<< 16)
      ||| (decompose 123456789123).machine_id) = 123456789123 :=
  ⟨C2_decompose_bijection.1 3 5 42 (by decide) (by decide) (by decide),
    C2_decompose_bijection.2.1 123456789123 (by decide)⟩

/-- C9: every id successfully returned by a generator configured with
machine id m decomposes to machine_id = m. -/
theorem C9_machine_id_embedded (sf : SharedSonyflake) (now : Int) (id : Nat)
    (hwf : wf sf) (hid : (next_id sf now).1 = Except.ok id) :
    (decompose id).machine_id = sf.machine_id := by
  rcases hne : next_id sf now with ⟨res, st⟩
  rw [hne] at hid
  obtain ⟨_, _, _, _, hok, _, _, _, _⟩ := next_id_main sf now hwf res st hne
  obtain ⟨_, _, hv⟩ := hok id hid
  subst hv
  rw [decompose_machine]
  obtain ⟨_, _, hm⟩ := hwf
  omega

/-- witness for C9 at a concrete generator with machine id 42. -/
theorem C9_witness :
    wf ⟨0, 42, ⟨0, 256⟩⟩ ∧
    (next_id ⟨0, 42, ⟨0, 256⟩⟩ 0).1 = Except.ok ((257 <<< 16) ||| 42) ∧
    (decompose ((257 <<< 16) ||| 42)).machine_id = 42 :=
  ⟨⟨by decide, by decide, by decide⟩, by decide,
    C9_machine_id_embedded ⟨0, 42, ⟨0, 256⟩⟩ 0 _
      ⟨by decide, by decide, by decide⟩ (by decide)⟩

/-- C10: the sequence-wrap check precedes the time-limit check: a call
whose current_tick does not exceed elapsed_time and whose stored sequence
is 511 returns OverSequenceLimit no matter how large elapsed_time is, and
OverTimeLimit is only ever returned by a call that committed its counter
update. -/
theorem C10_wrap_check_precedes_time_check (sf : SharedSonyflake) (now : Int)
    (hwf : wf sf) :
    (current_elapsed_time now sf.start_time ≤ sf.internals.elapsed_time →
      sf.internals.sequence = 511 →
      (next_id sf now).1 = Except.error Error.OverSequenceLimit) ∧
    ((next_id sf now).1 = Except.error Error.OverTimeLimit →
      (next_id sf now).2.internals ≠ sf.internals) := by
  rcases hne : next_id sf now with ⟨res, st⟩
  obtain ⟨_, _, _, _, _, _, htl, _, hwfwd⟩ := next_id_main sf now hwf res st hne
  exact ⟨fun hle h511 => hwfwd (not_lt.mpr hle) h511, htl⟩

/-- witness for C10: with elapsed_time already at 2^39 (as in the
test_over_time_limit test setup) and sequence 511, a non-advancing call
still reports OverSequenceLimit; with sequence 0 it reports OverTimeLimit
after committing the increment. -/
theorem C10_witness :
    wf ⟨0, 7, ⟨2 ^ 39, 511⟩⟩ ∧
    (next_id ⟨0, 7, ⟨2 ^ 39, 511⟩⟩ 0).1 = Except.error Error.OverSequenceLimit ∧
    (next_id ⟨0, 7, ⟨2 ^ 39, 0⟩⟩ 0).1 = Except.error Error.OverTimeLimit ∧
    (next_id ⟨0, 7, ⟨2 ^ 39, 0⟩⟩ 0).2.internals ≠ ⟨2 ^ 39, 0⟩ :=
  ⟨⟨by decide, by decide, by decide⟩,
    (C10_wrap_check_precedes_time_check ⟨0, 7, ⟨2 ^ 39, 511⟩⟩ 0
      ⟨by decide, by decide, by decide⟩).1 (by decide) rfl,
    by decide,
    (C10_wrap_check_precedes_time_check ⟨0, 7, ⟨2 ^ 39, 0⟩⟩ 0
      ⟨by decide, by decide, by decide⟩).2 (by decide)⟩

/-- C3: for any sequence of next_id calls on one well-formed generator
with a non-decreasing clock feed, the successfully returned ids in call
order are strictly increasing; and (for any clock feed at all) no two
successful calls ever return the same value. -/
theorem C3_ids_increase_and_distinct (sf : SharedSonyflake) (nows : List Int)
    (hwf : wf sf) :
    (nows.Chain' (· ≤ ·) → (oks (run sf nows).1).Pairwise (· < ·)) ∧
    (oks (run sf nows).1).Pairwise (· ≠ ·) := by
  have hp := oks_pairwise nows sf hwf
  exact ⟨fun _ => hp, hp.imp Nat.ne_of_lt⟩

/-- witness for C3 on a concrete three-call run. -/
theorem C3_witness :
    ([0, 0, 10000000] : List Int).Chain' (· ≤ ·) ∧
    (oks (run ⟨0, 42, ⟨0, 256⟩⟩ [0, 0, 10000000]).1).Pairwise (· < ·) ∧
    (oks (run ⟨0, 42, ⟨0, 256⟩⟩ [0, 0, 10000000]).1).Pairwise (· ≠ ·) := by
  have hch : ([0, 0, 10000000] : List Int).Chain' (· ≤ ·) := by
    norm_num [List.chain'_cons]
  have h := C3_ids_increase_and_distinct ⟨0, 42, ⟨0, 256⟩⟩ [0, 0, 10000000]
    ⟨by decide, by decide, by decide⟩
  exact ⟨hch, h.1 hch, h.2⟩

/-- counterexample to C4 as stated: after OverSequenceLimit the stored
sequence is still 511, not the wrapped 0; and after OverTimeLimit the
stored elapsed_time differs from its pre-call value. -/
theorem C4_counterexample :
    (next_id ⟨0, 0, ⟨0, 511⟩⟩ 0).1 = Except.error Error.OverSequenceLimit ∧
    (next_id ⟨0, 0, ⟨0, 511⟩⟩ 0).2.internals.sequence = 511 ∧
    ¬ (next_id ⟨0, 0, ⟨0, 511⟩⟩ 0).2.internals.sequence = 0 ∧
    (next_id ⟨0, 0, ⟨0, 0⟩⟩ (2 ^ 39 * 10 ^ 7)).1 = Except.error Error.OverTimeLimit ∧
    ¬ (next_id ⟨0, 0, ⟨0, 0⟩⟩ (2 ^ 39 * 10 ^ 7)).2.internals.elapsed_time = 0 :=
  ⟨by decide, by decide, by decide, by decide, by decide⟩

/-- C4 amended: next_id mutates the shared counters exactly once per
successful call; an OverSequenceLimit failure performs no state mutation
at all — the stored sequence remains at its pre-call value 511 (the
wrapped-to-zero sequence is not committed) — and an OverTimeLimit failure
commits the counter update (tick advance or sequence increment) that
preceded the limit check, so the stored counters differ from their
pre-call values. -/
theorem C4_error_side_effects (sf : SharedSonyflake) (now : Int) (hwf : wf sf) :
    ((next_id sf now).1 = Except.error Error.OverSequenceLimit →
      (next_id sf now).2 = sf ∧ sf.internals.sequence = 511) ∧
    ((next_id sf now).1 = Except.error Error.OverTimeLimit →
      (next_id sf now).2.internals ≠ sf.internals) ∧
    (∀ id, (next_id sf now).1 = Except.ok id →
      (next_id sf now).2.internals ≠ sf.internals) := by
  rcases hne : next_id sf now with ⟨res, st⟩
  obtain ⟨_, _, _, _, hok, hseq, htl, _, _⟩ := next_id_main sf now hwf res st hne
  refine ⟨hseq, htl, ?_⟩
  intro id hid
  obtain ⟨hlt, _, _⟩ := hok id hid
  intro h
  have hmm2 : mu st = mu sf := by
    unfold mu
    rw [h]
  omega

/-- witness for C4 at the exhausted concrete state. -/
theorem C4_witness :
    wf ⟨0, 0, ⟨0, 511⟩⟩ ∧
    (next_id ⟨0, 0, ⟨0, 511⟩⟩ 0).1 = Except.error Error.OverSequenceLimit ∧
    (next_id ⟨0, 0, ⟨0, 511⟩⟩ 0).2 = ⟨0, 0, ⟨0, 511⟩⟩ :=
  ⟨⟨by decide, by decide, by decide⟩, by decide,
    ((C4_error_side_effects ⟨0, 0, ⟨0, 511⟩⟩ 0
      ⟨by decide, by decide, by decide⟩).1 (by decide)).1⟩

/-! Constant-clock runs, used to settle the sequence-exhaustion claim. -/

lemma next_id_const_ok (st2 : Int) (m : Nat) (t : Int)
    (ht : to_sonyflake_time t = st2) (s : Nat) (hs : s < 511) :
    next_id ⟨st2, m, ⟨0, s⟩⟩ t
      = (Except.ok (((s + 1) <<< 16) ||| m), ⟨st2, m, ⟨0, s + 1⟩⟩) := by
  have hcur : current_elapsed_time t st2 = 0 := by
    unfold current_elapsed_time
    omega
  unfold next_id
  dsimp only
  rw [hcur, if_neg (lt_irrefl (0 : Int)), next_sequence_eq (by omega : s < 512)]
  have h1 : (s + 1) % 512 = s + 1 := by omega
  rw [h1, if_neg (by omega : ¬ s + 1 = 0)]
  dsimp only
  rw [if_neg (by decide : ¬ ((1 <<< BIT_LEN_TIME : Nat) : Int) ≤ 0)]
  have h2 : (u64_of_i64 0 <<< (BIT_LEN_SEQUENCE + BIT_LEN_MACHINE_ID)) % 2 ^ 64 = 0 := by
    decide
  rw [h2, Nat.zero_or]
  have h3 : BIT_LEN_MACHINE_ID = 16 := by decide
  rw [h3]

lemma next_id_const_wrap (st2 : Int) (m : Nat) (t : Int)
    (ht : to_sonyflake_time t = st2) :
    next_id ⟨st2, m, ⟨0, 511⟩⟩ t
      = (Except.error Error.OverSequenceLimit, ⟨st2, m, ⟨0, 511⟩⟩) := by
  have hcur : current_elapsed_time t st2 = 0 := by
    unfold current_elapsed_time
    omega
  unfold next_id
  dsimp only
  rw [hcur, if_neg (lt_irrefl (0 : Int)), next_sequence_eq (by omega : (511 : Nat) < 512)]
  rfl

/-- a constant-clock run at the epoch tick: starting from sequence s,
exactly 511 - s of the k calls succeed, and the final sequence is
min 511 (s + k). -/
lemma run_const (st2 : Int) (m : Nat) (t : Int) (ht : to_sonyflake_time t = st2) :
    ∀ (k s : Nat), s ≤ 511 →
      ((run ⟨st2, m, ⟨0, s⟩⟩ (List.replicate k t)).1.countP (fun r => r.isOk)
          = min k (511 - s)) ∧
      (run ⟨st2, m, ⟨0, s⟩⟩ (List.replicate k t)).2 = ⟨st2, m, ⟨0, min 511 (s + k)⟩⟩ := by
  intro k
  induction k with
  | zero =>
    intro s hs
    constructor
    · simp [run]
    · have h0 : min 511 (s + 0) = s := by omega
      rw [h0]
      simp [run]
  | succ k ih =>
    intro s hs
    rw [List.replicate_succ]
    by_cases hlt : s < 511
    · rw [run_cons _ _ _ _ _ (next_id_const_ok st2 m t ht s hlt)]
      have hih := ih (s + 1) (by omega)
      constructor
      · rw [List.countP_cons, hih.1]
        norm_num [Except.isOk, Except.toBool]
        omega
      · rw [hih.2]
        have : min 511 (s + 1 + k) = min 511 (s + (k + 1)) := by omega
        rw [this]
    · have h511 : s = 511 := by omega
      subst h511
      rw [run_cons _ _ _ _ _ (next_id_const_wrap st2 m t ht)]
      have hih := ih 511 (by omega)
      constructor
      · rw [List.countP_cons, hih.1]
        norm_num [Except.isOk, Except.toBool]
      · rw [hih.2]
        have h4 : (511 : Nat) ⊓ (511 + k) = 511 ⊓ (511 + (k + 1)) := by omega
        rw [h4]

lemma run_append (sf : SharedSonyflake) (l1 l2 : List Int) :
    run sf (l1 ++ l2)
      = ((run sf l1).1 ++ (run (run sf l1).2 l2).1, (run (run sf l1).2 l2).2) := by
  induction l1 generalizing sf with
  | nil => simp [run]
  | cons a l ih =>
    rcases hne : next_id sf a with ⟨res, st⟩
    rw [List.cons_append, run_cons _ _ _ _ _ hne, run_cons _ _ _ _ _ hne, ih st]
    simp

/-- counterexample to C5 as stated: on a freshly finalized generator
(sequence 256, elapsed_time 0) with the clock held constant at the epoch,
only 255 of the first 256 calls succeed — the 256th call already returns
OverSequenceLimit, not the 257th. -/
theorem C5_counterexample :
    finalize ⟨some 0, some (Except.ok 42), none⟩ 0 none
      = Except.ok ⟨0, 42, ⟨0, 256⟩⟩ ∧
    ((run ⟨0, 42, ⟨0, 256⟩⟩ (List.replicate 256 0)).1.countP (fun r => r.isOk)
      = 255) ∧
    (run ⟨0, 42, ⟨0, 256⟩⟩ (List.replicate 255 0)).2 = ⟨0, 42, ⟨0, 511⟩⟩ ∧
    (next_id ⟨0, 42, ⟨0, 511⟩⟩ 0).1 = Except.error Error.OverSequenceLimit := by
  have ht : to_sonyflake_time 0 = 0 := by decide
  refine ⟨by decide, ?_, ?_, ?_⟩
  · rw [(run_const 0 42 0 ht 256 256 (by omega)).1]
    decide
  · rw [(run_const 0 42 0 ht 255 256 (by omega)).2]
    decide
  · rw [next_id_const_wrap 0 42 0 ht]

/-- C5 amended: a freshly finalized generator starts at sequence 256, so
with the clock held constant at the epoch tick the increment-then-check
order leaves only the 255 sequence values 257..511: exactly 255 of the
first 256 calls succeed and the 256th call returns OverSequenceLimit
(SequenceExhausted). -/
theorem C5_sequence_exhaustion (t : Int) (m : Nat) :
    finalize ⟨some t, some (Except.ok m), none⟩ t none
      = Except.ok ⟨to_sonyflake_time t, m, ⟨0, 256⟩⟩ ∧
    ((run ⟨to_sonyflake_time t, m, ⟨0, 256⟩⟩ (List.replicate 256 t)).1.countP
        (fun r => r.isOk) = 255) ∧
    ((run ⟨to_sonyflake_time t, m, ⟨0, 256⟩⟩ (List.replicate 256 t)).1.getLast?
      = some (Except.error Error.OverSequenceLimit)) := by
  refine ⟨?_, ?_, ?_⟩
  · unfold finalize
    dsimp only
    rw [if_neg (lt_irrefl t)]
    rfl
  · rw [(run_const (to_sonyflake_time t) m t rfl 256 256 (by omega)).1]
    decide
  · rw [show (256 : Nat) = 255 + 1 from rfl, List.replicate_succ', run_append,
      (run_const (to_sonyflake_time t) m t rfl 255 256 (by omega)).2]
    rw [show (511 : Nat) ⊓ (256 + 255) = 511 from by omega]
    rw [run_cons _ _ _ _ _ (next_id_const_wrap (to_sonyflake_time t) m t rfl)]
    dsimp only
    rw [show (run ⟨to_sonyflake_time t, m, ⟨0, 511⟩⟩ ([] : List Int)).1 = [] from rfl]
    exact List.getLast?_concat _

/-- C6: finalize validates in a fixed order and fails closed: a supplied
start epoch strictly in the future fails with StartTimeAheadOfCurrentTime
carrying that start time regardless of the machine id configuration; when
the start step passes, a failing provider yields MachineIdFailed with the
underlying cause preserved, no provider plus no discovered private IPv4
yields NoPrivateIPv4, and a supplied acceptance predicate rejecting the
resolved machine id yields CheckMachineIdFailed. -/
theorem C6_finalize_validation_order (b : Builder) (now : Int)
    (host : Option (Nat × Nat × Nat × Nat)) :
    (∀ st, b.start_time = some st → now < st →
      finalize b now host = Except.error (Error.StartTimeAheadOfCurrentTime st)) ∧
    ((∀ st, b.start_time = some st → st ≤ now) →
      (∀ e, b.machine_id = some (Except.error e) →
        finalize b now host = Except.error (Error.MachineIdFailed e)) ∧
      (b.machine_id = none → host = none →
        finalize b now host = Except.error Error.NoPrivateIPv4) ∧
      (∀ m chk, b.check_machine_id = some chk → chk m = false →
        (b.machine_id = some (Except.ok m) ∨
          (b.machine_id = none ∧ lower_16_bit_private_ip host = Except.ok m)) →
        finalize b now host = Except.error Error.CheckMachineIdFailed)) := by
  obtain ⟨bst, bmid, bchk⟩ := b
  constructor
  · intro st hst hlt
    dsimp only at hst
    subst hst
    unfold finalize
    dsimp only
    rw [if_pos hlt]
  · intro hstok
    refine ⟨?_, ?_, ?_⟩
    · intro e hmid
      dsimp only at hmid
      subst hmid
      rcases bst with _ | st
      · unfold finalize
        dsimp only
      · have hle := hstok st rfl
        unfold finalize
        dsimp only
        rw [if_neg (not_lt.mpr hle)]
    · intro hmid hhost
      dsimp only at hmid
      subst hmid
      subst hhost
      rcases bst with _ | st
      · unfold finalize
        dsimp only
        rfl
      · have hle := hstok st rfl
        unfold finalize
        dsimp only
        rw [if_neg (not_lt.mpr hle)]
        rfl
    · intro m chk hchk hrej hres
      dsimp only at hchk
      subst hchk
      rcases hres with hmid | ⟨hmid, hlow⟩
      · dsimp only at hmid
        subst hmid
        rcases bst with _ | st
        · unfold finalize
          dsimp only
          rw [hrej]
          rfl
        · have hle := hstok st rfl
          unfold finalize
          dsimp only
          rw [if_neg (not_lt.mpr hle), hrej]
          rfl
      · dsimp only at hmid
        subst hmid
        rcases bst with _ | st
        · unfold finalize
          dsimp only
          rw [hlow]
          dsimp only
          rw [hrej]
          rfl
        · have hle := hstok st rfl
          unfold finalize
          dsimp only
          rw [if_neg (not_lt.mpr hle), hlow]
          dsimp only
          rw [hrej]
          rfl

/-- witness for C6: each validation failure exercised on a concrete
builder. -/
theorem C6_witness :
    finalize ⟨some 1, some (Except.ok 42), none⟩ 0 none
      = Except.error (Error.StartTimeAheadOfCurrentTime 1) ∧
    finalize ⟨none, some (Except.error "boom"), none⟩ 0 none
      = Except.error (Error.MachineIdFailed "boom") ∧
    finalize ⟨none, none, none⟩ 0 none = Except.error Error.NoPrivateIPv4 ∧
    finalize ⟨none, some (Except.ok 42), some fun _ => false⟩ 0 none
      = Except.error Error.CheckMachineIdFailed := by
  refine ⟨?_, ?_, ?_, ?_⟩
  · exact (C6_finalize_validation_order ⟨some 1, some (Except.ok 42), none⟩ 0 none).1
      1 rfl (by decide)
  · exact ((C6_finalize_validation_order ⟨none, some (Except.error "boom"), none⟩ 0
      none).2 (fun st hst => by cases hst)).1 "boom" rfl
  · exact ((C6_finalize_validation_order ⟨none, none, none⟩ 0 none).2
      (fun st hst => by cases hst)).2.1 rfl rfl
  · exact ((C6_finalize_validation_order ⟨none, some (Except.ok 42),
      some fun _ => false⟩ 0 none).2 (fun st hst => by cases hst)).2.2 42 _ rfl rfl
      (Or.inl rfl)


/-- witness for C5 at the concrete epoch clock 0 and machine id 42. -/
theorem C5_witness :
    finalize ⟨some 0, some (Except.ok 42), none⟩ 0 none
      = Except.ok ⟨to_sonyflake_time 0, 42, ⟨0, 256⟩⟩ ∧
    ((run ⟨to_sonyflake_time 0, 42, ⟨0, 256⟩⟩ (List.replicate 256 0)).1.countP
        (fun r => r.isOk) = 255) ∧
    ((run ⟨to_sonyflake_time 0, 42, ⟨0, 256⟩⟩ (List.replicate 256 0)).1.getLast?
      = some (Except.error Error.OverSequenceLimit)) :=
  C5_sequence_exhaustion 0 42

lemma finalize_post (stt : Int) (mid : Nat) (sf : SharedSonyflake)
    (h : (⟨stt, mid, ⟨0, 1 <<< (BIT_LEN_SEQUENCE - 1)⟩⟩ : SharedSonyflake) = sf) :
    sf.internals.sequence = 256 ∧
    sf.internals.sequence = 1 <<< (BIT_LEN_SEQUENCE - 1) ∧
    sf.internals.elapsed_time = 0 ∧ sf.start_time = stt := by
  subst h
  exact ⟨rfl, rfl, rfl, rfl⟩

/-- success cases of finalize: whatever the machine id resolution and
check were, a returned generator has the initial counters and the start
time determined by the builder's start_time field. -/
lemma finalize_ok_state (b : Builder) (now : Int)
    (host : Option (Nat × Nat × Nat × Nat)) (sf : SharedSonyflake)
    (h : finalize b now host = Except.ok sf) :
    ∃ mid : Nat,
      (⟨(match b.start_time with
          | some st => to_sonyflake_time st
          | none => to_sonyflake_time default_epoch_nanos), mid,
        ⟨0, 1 <<< (BIT_LEN_SEQUENCE - 1)⟩⟩ : SharedSonyflake) = sf := by
  obtain ⟨bst, bmid, bchk⟩ := b
  unfold finalize at h
  dsimp only [lower_16_bit_private_ip] at h
  rcases bst with _ | st
  case none =>
    dsimp only at h
    rcases bmid with _ | p
    · rcases host with _ | ip
      · cases h
      · obtain ⟨o0, o1, o2, o3⟩ := ip
        dsimp only at h
        rcases bchk with _ | chk
        · dsimp only at h
          injection h with h2
          exact ⟨_, h2⟩
        · dsimp only at h
          rcases hc : chk (((o2 % 256) <<< 8) + o3 % 256) with _ | _ <;> rw [hc] at h
          · cases h
          · injection h with h2
            exact ⟨_, h2⟩
    · rcases p with e | mv
      · dsimp only at h
        cases h
      · dsimp only at h
        rcases bchk with _ | chk
        · dsimp only at h
          injection h with h2
          exact ⟨_, h2⟩
        · dsimp only at h
          rcases hc : chk mv with _ | _ <;> rw [hc] at h
          · cases h
          · injection h with h2
            exact ⟨_, h2⟩
  case some =>
    dsimp only at h
    by_cases hlt : now < st
    · rw [if_pos hlt] at h
      cases h
    · rw [if_neg hlt] at h
      dsimp only at h
      rcases bmid with _ | p
      · rcases host with _ | ip
        · cases h
        · obtain ⟨o0, o1, o2, o3⟩ := ip
          dsimp only at h
          rcases bchk with _ | chk
          · dsimp only at h
            injection h with h2
            exact ⟨_, h2⟩
          · dsimp only at h
            rcases hc : chk (((o2 % 256) <<< 8) + o3 % 256) with _ | _ <;> rw [hc] at h
            · cases h
            · injection h with h2
              exact ⟨_, h2⟩
      · rcases p with e | mv
        · dsimp only at h
          cases h
        · dsimp only at h
          rcases bchk with _ | chk
          · dsimp only at h
            injection h with h2
            exact ⟨_, h2⟩
          · dsimp only at h
            rcases hc : chk mv with _ | _ <;> rw [hc] at h
            · cases h
            · injection h with h2
              exact ⟨_, h2⟩

/-- C7: a successfully finalized generator starts with sequence
2^(9-1) = 256 and elapsed_time 0, its start_time is the supplied epoch
converted to 10 ms ticks, and with no supplied epoch it is the fixed
default 2014-09-01 00:00:00 UTC converted to ticks, i.e. 140952960000. -/
theorem C7_finalize_initial_state (b : Builder) (now : Int)
    (host : Option (Nat × Nat × Nat × Nat)) (sf : SharedSonyflake)
    (h : finalize b now host = Except.ok sf) :
    sf.internals.sequence = 256 ∧
    sf.internals.sequence = 1 <<< (BIT_LEN_SEQUENCE - 1) ∧
    sf.internals.elapsed_time = 0 ∧
    (∀ st, b.start_time = some st → sf.start_time = to_sonyflake_time st) ∧
    (b.start_time = none →
      sf.start_time = to_sonyflake_time default_epoch_nanos ∧
      sf.start_time = 140952960000) := by
  obtain ⟨mid, hstate⟩ := finalize_ok_state b now host sf h
  obtain ⟨h1, h2, h3, h4⟩ := finalize_post _ mid sf hstate
  refine ⟨h1, h2, h3, ?_, ?_⟩
  · intro st hst
    rw [h4, hst]
  · intro hnone
    rw [h4, hnone]
    exact ⟨rfl, by decide⟩

/-- witness for C7 on a concrete builder with and without a start time. -/
theorem C7_witness :
    finalize ⟨none, some (Except.ok 42), none⟩ 0 none
      = Except.ok ⟨140952960000, 42, ⟨0, 256⟩⟩ ∧
    (⟨140952960000, 42, ⟨0, 256⟩⟩ : SharedSonyflake).internals.sequence = 256 ∧
    (⟨140952960000, 42, ⟨0, 256⟩⟩ : SharedSonyflake).internals.elapsed_time = 0 ∧
    (⟨140952960000, 42, ⟨0, 256⟩⟩ : SharedSonyflake).start_time
      = to_sonyflake_time default_epoch_nanos ∧
    (⟨140952960000, 42, ⟨0, 256⟩⟩ : SharedSonyflake).start_time = 140952960000 := by
  have hfin : finalize ⟨none, some (Except.ok 42), none⟩ 0 none
      = Except.ok ⟨140952960000, 42, ⟨0, 256⟩⟩ := by decide
  have h := C7_finalize_initial_state ⟨none, some (Except.ok 42), none⟩ 0 none
    ⟨140952960000, 42, ⟨0, 256⟩⟩ hfin
  exact ⟨hfin, h.1, h.2.2.1, (h.2.2.2.2 rfl).1, (h.2.2.2.2 rfl).2⟩

/-- C8: for an instant at or after the epoch (and within the 39-bit
range), min_sonyflake_for_time is exactly
(ticks_since_epoch(time) - start_time) << 25, and it bounds from below
every id next_id successfully mints at any clock at or after that
instant. -/
theorem C8_min_sonyflake_lower_bound (sf : SharedSonyflake) (t : Int)
    (h0 : 0 ≤ to_sonyflake_time t - sf.start_time)
    (hlt : to_sonyflake_time t - sf.start_time < 2 ^ 39) :
    min_sonyflake_for_time sf t
      = (to_sonyflake_time t - sf.start_time).toNat <<< 25 ∧
    (∀ now id, wf sf → to_sonyflake_time t ≤ to_sonyflake_time now →
      (next_id sf now).1 = Except.ok id → min_sonyflake_for_time sf t ≤ id) := by
  have hbl : BIT_LEN_SEQUENCE + BIT_LEN_MACHINE_ID = 25 := by decide
  have heq : min_sonyflake_for_time sf t
      = (to_sonyflake_time t - sf.start_time).toNat <<< 25 := by
    unfold min_sonyflake_for_time
    rw [hbl, u64_of_i64_eq_toNat h0 (by omega),
      Nat.mod_eq_of_lt (by rw [Nat.shiftLeft_eq]; omega)]
  refine ⟨heq, ?_⟩
  intro now id hwf hle hid
  rcases hne : next_id sf now with ⟨res, st⟩
  rw [hne] at hid
  obtain ⟨hwfst, _, _, _, hok, _, _, hcur, _⟩ := next_id_main sf now hwf res st hne
  obtain ⟨_, hbound, hv⟩ := hok id hid
  subst hv
  rw [heq, Nat.shiftLeft_eq]
  have h1 : 0 ≤ st.internals.elapsed_time := hwfst.1
  have h3 : mu st = st.internals.elapsed_time * 512 + st.internals.sequence := rfl
  have h4 : to_sonyflake_time t - sf.start_time ≤ st.internals.elapsed_time := by
    unfold current_elapsed_time at hcur
    omega
  omega

/-- witness for C8 at a concrete generator and instant. -/
theorem C8_witness :
    (0 : Int) ≤ to_sonyflake_time 0 - (0 : Int) ∧
    to_sonyflake_time 0 - (0 : Int) < 2 ^ 39 ∧
    min_sonyflake_for_time ⟨0, 42, ⟨0, 256⟩⟩ 0
      = (to_sonyflake_time 0 - 0).toNat <<< 25 ∧
    min_sonyflake_for_time ⟨0, 42, ⟨0, 256⟩⟩ 0 ≤ (257 <<< 16) ||| 42 := by
  have h := C8_min_sonyflake_lower_bound ⟨0, 42, ⟨0, 256⟩⟩ 0 (by decide) (by decide)
  exact ⟨by decide, by decide, h.1,
    h.2 0 ((257 <<< 16) ||| 42) ⟨by decide, by decide, by decide⟩ (by decide)
      (by decide)⟩

end Sonyflake
